import Mathlib

/-!
Verification of the core subsystems of the claude-code-bootstrap-template worker:
the fixed-window rate limiter (RateLimitService, src/services/rate-limit.ts) and
the bounded conversation history store (DatabaseService, src/services/database.ts).

The services are shallowly embedded:
  - The Cloudflare KV namespace is a list of (key, value, ttl) entries plus
    fault-injection flags for get/put; the JSON round-trip of the stored
    counter object (JSON.parse ∘ JSON.stringify = id on such records) is
    modelled by storing the record itself.
  - Date.now() is an explicit argument (epoch milliseconds as Nat).
  - The D1 conversations table is a list of rows; the SQL statements used by
    the service (filter by conversation_id, ORDER BY timestamp with LIMIT,
    DELETE ... NOT IN (...), COUNT DISTINCT, COUNT(*)) are modelled over that
    list; ORDER BY on the TEXT timestamp column is the lexicographic order on
    the timestamp's character data, matching SQLite's binary collation.
  - Thrown exceptions become Except values; try/catch becomes matching on
    them.  Storage failures are injected through the fault flags.
  - JSON.parse of a metadata string (which can throw inside the row mapper of
    getConversationHistory) is an abstract parameter parseJson returning
    Option; JSON.stringify of a metadata object is an abstract parameter.
-/

namespace RateLimit

/-- The parsed form of the value stored at a rate_limit key: the JSON object
written by JSON.stringify({count, window}) in checkRateLimit. -/
structure RateData where
  count : Int
  window : Nat
deriving DecidableEq, Repr

/-- Result shape of the rate limiter, interface RateLimitInfo in src/types. -/
structure RateLimitInfo where
  remaining : Int
  resetTime : Nat
  blocked : Bool
deriving DecidableEq, Repr

/-- The KV namespace backing the limiter: stored entries (key, value,
expirationTtl in seconds) plus fault-injection flags for the get and put
operations. -/
structure KV where
  entries : List (String × RateData × Nat)
  getFails : Bool
  putFails : Bool
deriving DecidableEq, Repr

/-- Lookup of a key among the stored entries (first match wins; put places the
fresh entry in front and drops the old one). -/
def kvLookup : List (String × RateData × Nat) → String → Option (RateData × Nat)
  | [], _ => none
  | (k, v) :: rest, key => if k = key then some v else kvLookup rest key

/-- kv.get(key): may throw (getFails); otherwise returns the stored value or
null. -/
def KV.get (kv : KV) (key : String) : Except Unit (Option RateData) :=
  if kv.getFails then Except.error () else Except.ok ((kvLookup kv.entries key).map Prod.fst)

/-- kv.put(key, value, {expirationTtl}): may throw (putFails); otherwise
overwrites the entry for the key. -/
def KV.put (kv : KV) (key : String) (v : RateData) (ttl : Nat) : Except Unit KV :=
  if kv.putFails then Except.error ()
  else Except.ok { kv with
    entries := (key, v, ttl) :: kv.entries.filter (fun e => decide (¬e.1 = key)) }

/-- The count the service derives from the stored value: a record whose window
differs from the current windowStart (or an absent record) counts as 0.
Mirrors lines 21-28 of RateLimitService.checkRateLimit. -/
def effectiveCount (current : Option RateData) (windowStart : Nat) : Int :=
  match current with
  | none => 0
  | some parsed => if parsed.window = windowStart then parsed.count else 0

/-- RateLimitService.checkRateLimit.  limitPerMinute is the configured limit,
now is Date.now().  Returns the RateLimitInfo together with the KV state after
the call.  The catch branch (any get/put failure) fails open with
remaining = limit - 1. -/
def checkRateLimit (limitPerMinute : Int) (kv : KV) (identifier : String) (now : Nat) :
    RateLimitInfo × KV :=
  let key := "rate_limit:" ++ identifier
  let windowStart := now / 60000 * 60000
  let windowEnd := windowStart + 60000
  match KV.get kv key with
  | Except.error _ =>
    ({ remaining := limitPerMinute - 1, resetTime := windowEnd, blocked := false }, kv)
  | Except.ok current =>
    let count := effectiveCount current windowStart
    let remaining := max 0 (limitPerMinute - count)
    if remaining = 0 then
      ({ remaining := 0, resetTime := windowEnd, blocked := true }, kv)
    else
      match KV.put kv key { count := count + 1, window := windowStart } 120 with
      | Except.error _ =>
        ({ remaining := limitPerMinute - 1, resetTime := windowEnd, blocked := false }, kv)
      | Except.ok kv2 =>
        ({ remaining := remaining - 1, resetTime := windowEnd, blocked := false }, kv2)

/-- RateLimitService.getRateLimitStatus: same window computation, read-only.
Its catch branch returns remaining = limitPerMinute (not limit - 1). -/
def getRateLimitStatus (limitPerMinute : Int) (kv : KV) (identifier : String) (now : Nat) :
    RateLimitInfo :=
  let key := "rate_limit:" ++ identifier
  let windowStart := now / 60000 * 60000
  let windowEnd := windowStart + 60000
  match KV.get kv key with
  | Except.error _ =>
    { remaining := limitPerMinute, resetTime := windowEnd, blocked := false }
  | Except.ok current =>
    let count := effectiveCount current windowStart
    let remaining := max 0 (limitPerMinute - count)
    { remaining := remaining, resetTime := windowEnd, blocked := decide (remaining = 0) }

/-- n consecutive checkRateLimit calls for the same identifier at the same
instant, threading the KV state; returns the list of results. -/
def runCalls (limitPerMinute : Int) : Nat → KV → String → Nat → List RateLimitInfo × KV
  | 0, kv, _, _ => ([], kv)
  | n + 1, kv, identifier, now =>
    let r := checkRateLimit limitPerMinute kv identifier now
    let rest := runCalls limitPerMinute n r.2 identifier now
    (r.1 :: rest.1, rest.2)

/-- A fresh, healthy KV store. -/
def kv0 : KV := { entries := [], getFails := false, putFails := false }

/-- Claim C1: for every identifier whose stored count for the current window is
below the limit, checkAndConsume increments the count by 1, persists
{count, windowStart} with a 2×W expiry (expirationTtl 120 s = 120000 ms =
2 × 60000 ms), and returns blocked = false,
remaining = limit - count - 1 ≥ 0, resetTime = windowEnd; with limit = 3 and
W = 60000 ms, three consecutive calls in one window return remaining 2, 1, 0. -/
theorem checkRateLimit_consume_spec (limit : Int) (kv : KV) (ident : String) (now : Nat)
    (c : Int)
    (hg : kv.getFails = false) (hp : kv.putFails = false)
    (hc : effectiveCount ((kvLookup kv.entries ("rate_limit:" ++ ident)).map Prod.fst)
            (now / 60000 * 60000) = c)
    (hlt : c < limit) :
    (checkRateLimit limit kv ident now).1 =
      { remaining := limit - c - 1, resetTime := now / 60000 * 60000 + 60000, blocked := false }
    ∧ 0 ≤ limit - c - 1
    ∧ kvLookup (checkRateLimit limit kv ident now).2.entries ("rate_limit:" ++ ident) =
        some ({ count := c + 1, window := now / 60000 * 60000 }, 120)
    ∧ 120 * 1000 = 2 * 60000
    ∧ (runCalls 3 3 kv0 "u1" 0).1 =
        [{ remaining := 2, resetTime := 60000, blocked := false },
         { remaining := 1, resetTime := 60000, blocked := false },
         { remaining := 0, resetTime := 60000, blocked := false }] := by
  have hmax : max 0 (limit - c) = limit - c := max_eq_right (by omega)
  have hres : checkRateLimit limit kv ident now =
      ({ remaining := limit - c - 1, resetTime := now / 60000 * 60000 + 60000, blocked := false },
       { kv with entries :=
          ("rate_limit:" ++ ident, { count := c + 1, window := now / 60000 * 60000 }, 120) ::
            kv.entries.filter (fun e => decide (¬e.1 = "rate_limit:" ++ ident)) }) := by
    simp only [checkRateLimit, KV.get, hg, Bool.false_eq_true, if_false, hc, hmax, KV.put, hp]
    rw [if_neg (by omega)]
  refine ⟨by rw [hres], by omega, ?_, by norm_num, by decide⟩
  rw [hres]
  simp [kvLookup]

/-- Witness for claim C1 at a concrete input: one call at limit 3 on a fresh
store consumes a slot and persists count 1 for the current window. -/
theorem checkRateLimit_consume_spec_witness :
    (checkRateLimit 3 kv0 "u1" 0).1 =
      { remaining := 3 - 0 - 1, resetTime := 0 / 60000 * 60000 + 60000, blocked := false }
    ∧ 0 ≤ 3 - 0 - (1 : Int)
    ∧ kvLookup (checkRateLimit 3 kv0 "u1" 0).2.entries ("rate_limit:" ++ "u1") =
        some ({ count := 0 + 1, window := 0 / 60000 * 60000 }, 120)
    ∧ 120 * 1000 = 2 * 60000
    ∧ (runCalls 3 3 kv0 "u1" 0).1 =
        [{ remaining := 2, resetTime := 60000, blocked := false },
         { remaining := 1, resetTime := 60000, blocked := false },
         { remaining := 0, resetTime := 60000, blocked := false }] :=
  checkRateLimit_consume_spec 3 kv0 "u1" 0 0 rfl rfl (by decide) (by decide)

/-- Claim C2: for every identifier whose stored count in the current window is
at least the limit, checkAndConsume returns blocked = true, remaining = 0,
resetTime = windowEnd, and performs no write: the KV state is unchanged. -/
theorem checkRateLimit_blocked_no_write (limit : Int) (kv : KV) (ident : String) (now : Nat)
    (rd : RateData) (ttl : Nat)
    (hg : kv.getFails = false)
    (hl : kvLookup kv.entries ("rate_limit:" ++ ident) = some (rd, ttl))
    (hw : rd.window = now / 60000 * 60000)
    (hc : limit ≤ rd.count) :
    checkRateLimit limit kv ident now =
      ({ remaining := 0, resetTime := now / 60000 * 60000 + 60000, blocked := true }, kv) := by
  have hcount : effectiveCount ((kvLookup kv.entries ("rate_limit:" ++ ident)).map Prod.fst)
      (now / 60000 * 60000) = rd.count := by
    rw [hl]
    simp [effectiveCount, hw]
  have hmax : max 0 (limit - rd.count) = 0 := max_eq_left (by omega)
  simp only [checkRateLimit, KV.get, hg, Bool.false_eq_true, if_false, hcount, hmax]
  simp

/-- Witness for claim C2: a store holding count 3 for the current window at
limit 3 blocks without writing. -/
theorem checkRateLimit_blocked_no_write_witness :
    checkRateLimit 3
        { entries := [("rate_limit:u1", { count := 3, window := 0 }, 120)],
          getFails := false, putFails := false } "u1" 0 =
      ({ remaining := 0, resetTime := 0 / 60000 * 60000 + 60000, blocked := true },
       { entries := [("rate_limit:u1", { count := 3, window := 0 }, 120)],
         getFails := false, putFails := false }) :=
  checkRateLimit_blocked_no_write 3
    { entries := [("rate_limit:u1", { count := 3, window := 0 }, 120)],
      getFails := false, putFails := false } "u1" 0
    { count := 3, window := 0 } 120 rfl (by decide) (by decide) (by decide)

/-- Counterexample to claim C3 as stated: on a read failure, peekStatus
(getRateLimitStatus) returns remaining = limit, not remaining = limit - 1 as
the claim asserts for both operations. -/
theorem getRateLimitStatus_fail_open_cx :
    getRateLimitStatus 60 { entries := [], getFails := true, putFails := false } "u1" 0 =
      { remaining := 60, resetTime := 60000, blocked := false }
    ∧ (60 : Int) ≠ 60 - 1 := by
  constructor
  · decide
  · decide

/-- Claim C3 (amended): any storage read or write error is fail-open and is not
raised to the caller: on a read error checkAndConsume returns
remaining = limit - 1, blocked = false, resetTime = windowEnd with the store
unchanged, and peekStatus returns remaining = limit, blocked = false,
resetTime = windowEnd; on a write error (read succeeded, count below limit so a
write is attempted) checkAndConsume returns remaining = limit - 1,
blocked = false, resetTime = windowEnd with the store unchanged. -/
theorem rateLimit_fail_open (limit : Int) (kv : KV) (ident : String) (now : Nat) :
    (kv.getFails = true →
      checkRateLimit limit kv ident now =
        ({ remaining := limit - 1, resetTime := now / 60000 * 60000 + 60000, blocked := false },
         kv)
      ∧ getRateLimitStatus limit kv ident now =
        { remaining := limit, resetTime := now / 60000 * 60000 + 60000, blocked := false })
    ∧ (kv.getFails = false → kv.putFails = true →
      effectiveCount ((kvLookup kv.entries ("rate_limit:" ++ ident)).map Prod.fst)
          (now / 60000 * 60000) < limit →
      checkRateLimit limit kv ident now =
        ({ remaining := limit - 1, resetTime := now / 60000 * 60000 + 60000, blocked := false },
         kv)) := by
  constructor
  · intro hg
    constructor
    · simp [checkRateLimit, KV.get, hg]
    · simp [getRateLimitStatus, KV.get, hg]
  · intro hg hp hlt
    have hmax : max 0 (limit -
        effectiveCount ((kvLookup kv.entries ("rate_limit:" ++ ident)).map Prod.fst)
          (now / 60000 * 60000)) =
        limit - effectiveCount ((kvLookup kv.entries ("rate_limit:" ++ ident)).map Prod.fst)
          (now / 60000 * 60000) := max_eq_right (by omega)
    simp only [checkRateLimit, KV.get, hg, Bool.false_eq_true, if_false, hmax, KV.put, hp,
      if_true]
    rw [if_neg (by omega)]

/-- Witness for claim C3 (amended): a failing get at limit 60 yields the
fail-open results for both operations. -/
theorem rateLimit_fail_open_witness :
    checkRateLimit 60 { entries := [], getFails := true, putFails := false } "u1" 0 =
      ({ remaining := 60 - 1, resetTime := 0 / 60000 * 60000 + 60000, blocked := false },
       { entries := [], getFails := true, putFails := false })
    ∧ getRateLimitStatus 60 { entries := [], getFails := true, putFails := false } "u1" 0 =
      { remaining := 60, resetTime := 0 / 60000 * 60000 + 60000, blocked := false } :=
  (rateLimit_fail_open 60 { entries := [], getFails := true, putFails := false } "u1" 0).1 rfl

/-- Claim C8: a stored counter whose window differs from the current
floor(now / W) × W, or an absent counter, is treated as count 0; consequently,
once the clock has advanced by at least W past the call that stored the
counter, a previously blocked identifier is admitted again with
remaining = limit - 1 (for any positive limit). -/
theorem checkRateLimit_window_reset (limit : Int) (kv : KV) (ident : String)
    (now1 now2 : Nat) (rd : RateData) (ttl : Nat) :
    (∀ ws, effectiveCount none ws = 0)
    ∧ (∀ ws, rd.window ≠ ws → effectiveCount (some rd) ws = 0)
    ∧ (kv.getFails = false → 1 ≤ limit →
       kvLookup kv.entries ("rate_limit:" ++ ident) = some (rd, ttl) →
       rd.window = now1 / 60000 * 60000 →
       now1 + 60000 ≤ now2 →
       (checkRateLimit limit kv ident now2).1 =
         { remaining := limit - 1, resetTime := now2 / 60000 * 60000 + 60000,
           blocked := false }) := by
  refine ⟨fun _ => rfl, fun ws hne => by simp [effectiveCount, hne], ?_⟩
  intro hg h1 hl hw hadv
  have hne : rd.window ≠ now2 / 60000 * 60000 := by
    rw [hw]; omega
  have hcount : effectiveCount ((kvLookup kv.entries ("rate_limit:" ++ ident)).map Prod.fst)
      (now2 / 60000 * 60000) = 0 := by
    rw [hl]
    simp [effectiveCount, hne]
  have hmax : max 0 (limit - (0 : Int)) = limit := by omega
  simp only [checkRateLimit, KV.get, hg, Bool.false_eq_true, if_false, hcount, hmax, KV.put]
  rw [if_neg (by omega)]
  cases hpf : kv.putFails
  · simp
  · simp

/-- Witness for claim C8: a counter stored for the window of t = 0 is stale at
t = 60000 and the identifier is admitted again with remaining = limit - 1. -/
theorem checkRateLimit_window_reset_witness :
    (∀ ws, effectiveCount none ws = 0)
    ∧ (∀ ws, ({ count := 3, window := 0 } : RateData).window ≠ ws →
        effectiveCount (some { count := 3, window := 0 }) ws = 0)
    ∧ ((({ entries := [("rate_limit:u1", { count := 3, window := 0 }, 120)],
           getFails := false, putFails := false } : KV)).getFails = false → 1 ≤ (3 : Int) →
       kvLookup [("rate_limit:u1", { count := 3, window := 0 }, 120)]
           ("rate_limit:" ++ "u1") = some ({ count := 3, window := 0 }, 120) →
       (({ count := 3, window := 0 } : RateData)).window = 0 / 60000 * 60000 →
       0 + 60000 ≤ 60000 →
       (checkRateLimit 3
           { entries := [("rate_limit:u1", { count := 3, window := 0 }, 120)],
             getFails := false, putFails := false } "u1" 60000).1 =
         { remaining := 3 - 1, resetTime := 60000 / 60000 * 60000 + 60000,
           blocked := false }) :=
  checkRateLimit_window_reset 3
    { entries := [("rate_limit:u1", { count := 3, window := 0 }, 120)],
      getFails := false, putFails := false } "u1" 0 60000 { count := 3, window := 0 } 120

end RateLimit

namespace ConvStore

/-- A row of the conversations table (the columns selected by the service;
created_at is never read). -/
structure Row where
  id : String
  conversation_id : String
  role : String
  content : String
  timestamp : String
  metadata : Option String
deriving DecidableEq, Repr

/-- The D1 database backing the store: the conversations table as a list of
rows, plus fault-injection flags for the insert, select and delete
statements. -/
structure D1 where
  rows : List Row
  insertFails : Bool
  selectFails : Bool
  deleteFails : Bool
deriving DecidableEq, Repr

/-- A ConversationMessage (src/types); metadata holds the result of
JSON-parsing the stored metadata string, of abstract type α. -/
structure ConversationMessage (α : Type) where
  id : String
  conversationId : String
  role : String
  content : String
  timestamp : String
  metadata : Option α
deriving DecidableEq, Repr

/-- ORDER BY timestamp ASC: lexicographic order on the character data of the
TEXT column, SQLite's binary collation for ASCII timestamps. -/
def tsLe (a b : Row) : Prop := a.timestamp.data ≤ b.timestamp.data

/-- ORDER BY timestamp DESC. -/
def tsGe (a b : Row) : Prop := b.timestamp.data ≤ a.timestamp.data

instance : DecidableRel tsLe := fun a b =>
  inferInstanceAs (Decidable (a.timestamp.data ≤ b.timestamp.data))

instance : DecidableRel tsGe := fun a b =>
  inferInstanceAs (Decidable (b.timestamp.data ≤ a.timestamp.data))

instance : IsTotal Row tsLe := ⟨fun a b => le_total a.timestamp.data b.timestamp.data⟩

instance : IsTrans Row tsLe := ⟨fun _ _ _ h1 h2 => le_trans h1 h2⟩

instance : IsTotal Row tsGe := ⟨fun a b => le_total b.timestamp.data a.timestamp.data⟩

instance : IsTrans Row tsGe := ⟨fun _ _ _ h1 h2 => le_trans h2 h1⟩

/-- WHERE conversation_id = ?. -/
def rowsFor (rows : List Row) (conversationId : String) : List Row :=
  rows.filter (fun r => decide (r.conversation_id = conversationId))

/-- The row mapper inside getConversationHistory.  A null metadata column (and,
by JS truthiness, an empty-string one) leaves message.metadata unset; a
non-empty one goes through JSON.parse, whose failure (none) aborts the whole
mapping. -/
def rowToMessage (α : Type) (parseJson : String → Option α) (r : Row) :
    Option (ConversationMessage α) :=
  match r.metadata with
  | none => some { id := r.id, conversationId := r.conversation_id, role := r.role,
                   content := r.content, timestamp := r.timestamp, metadata := none }
  | some s =>
    if s = "" then
      some { id := r.id, conversationId := r.conversation_id, role := r.role,
             content := r.content, timestamp := r.timestamp, metadata := none }
    else
      match parseJson s with
      | none => none
      | some v => some { id := r.id, conversationId := r.conversation_id, role := r.role,
                         content := r.content, timestamp := r.timestamp, metadata := some v }

/-- results.map(...) where the mapper may throw: the first failure aborts. -/
def mapRowsM (α : Type) (f : Row → Option (ConversationMessage α)) :
    List Row → Option (List (ConversationMessage α))
  | [] => some []
  | r :: rs =>
    match f r with
    | none => none
    | some m =>
      match mapRowsM α f rs with
      | none => none
      | some ms => some (m :: ms)

/-- DatabaseService.getConversationHistory: SELECT ... WHERE conversation_id =
? ORDER BY timestamp ASC LIMIT maxHistoryLength, then map the rows; any
failure (the select itself or a JSON.parse of a metadata column) is caught and
turned into an empty list. -/
def getConversationHistory (α : Type) (maxHistoryLength : Nat) (db : D1)
    (conversationId : String) (parseJson : String → Option α) :
    List (ConversationMessage α) :=
  if db.selectFails then []
  else
    let results :=
      (List.insertionSort tsLe (rowsFor db.rows conversationId)).take maxHistoryLength
    match mapRowsM α (rowToMessage α parseJson) results with
    | none => []
    | some messages => messages

/-- DatabaseService.cleanupConversation: DELETE the conversation's rows whose
id is not among the maxHistoryLength most recent by timestamp (ORDER BY
timestamp DESC LIMIT maxHistoryLength); a failure is caught and ignored. -/
def cleanupConversation (maxHistoryLength : Nat) (db : D1) (conversationId : String) : D1 :=
  if db.deleteFails then db
  else
    let keepIds :=
      ((List.insertionSort tsGe (rowsFor db.rows conversationId)).take maxHistoryLength).map
        Row.id
    let keep : Row → Bool :=
      fun r => decide (¬(r.conversation_id = conversationId ∧ r.id ∉ keepIds))
    { db with rows := db.rows.filter keep }

/-- The ConversationMessage value built at the top of storeMessage (generateId
and toISOString come in as newId and newTimestamp). -/
def builtMessage (α : Type) (conversationId role content : String) (metadata : Option α)
    (newId newTimestamp : String) : ConversationMessage α :=
  { id := newId, conversationId := conversationId, role := role,
    content := content, timestamp := newTimestamp, metadata := metadata }

/-- The row bound into the INSERT statement of storeMessage: metadata is
JSON.stringified when present, NULL otherwise. -/
def insertedRow (α : Type) (conversationId role content : String) (metadata : Option α)
    (newId newTimestamp : String) (stringify : α → String) : Row :=
  { id := newId, conversation_id := conversationId, role := role, content := content,
    timestamp := newTimestamp, metadata := metadata.map stringify }

/-- DatabaseService.storeMessage: build the ConversationMessage, INSERT the row
(a failure there is rethrown as the given error), then run the best-effort
cleanup. -/
def storeMessage (α : Type) (maxHistoryLength : Nat) (db : D1)
    (conversationId role content : String) (metadata : Option α)
    (newId newTimestamp : String) (stringify : α → String) :
    Except String (ConversationMessage α × D1) :=
  let message := builtMessage α conversationId role content metadata newId newTimestamp
  if db.insertFails then Except.error ("Failed to store conversation message")
  else
    let db1 := { db with rows := db.rows ++
      [insertedRow α conversationId role content metadata newId newTimestamp stringify] }
    Except.ok (message, cleanupConversation maxHistoryLength db1 conversationId)

/-- DatabaseService.deleteConversation: DELETE FROM conversations WHERE
conversation_id = ?; a failure is rethrown as the given error. -/
def deleteConversation (db : D1) (conversationId : String) : Except String D1 :=
  let keep : Row → Bool := fun r => decide (¬r.conversation_id = conversationId)
  if db.deleteFails then Except.error ("Failed to delete conversation")
  else Except.ok { db with rows := db.rows.filter keep }

/-- DatabaseService.getConversationStats: COUNT(DISTINCT conversation_id) and
COUNT(*) over the current table; any failure is caught and turned into
(0, 0). -/
def getConversationStats (db : D1) : Nat × Nat :=
  if db.selectFails then (0, 0)
  else ((db.rows.map Row.conversation_id).dedup.length, db.rows.length)

/-- A fresh, healthy database. -/
def emptyDb : D1 := { rows := [], insertFails := false, selectFails := false,
                      deleteFails := false }

/-- One successful append (used to build concrete scenarios): runs storeMessage
with no metadata and keeps the resulting database state. -/
def appendOk (maxLen : Nat) (db : D1) (cid roleV contentV newId ts : String) : D1 :=
  match storeMessage Unit maxLen db cid roleV contentV none newId ts (fun _ => "") with
  | Except.ok p => p.2
  | Except.error _ => db

/-- Five appends "a".."e" with ascending timestamps into a store capped at 2
retained messages per conversation. -/
def exampleDb5 : D1 :=
  appendOk 2 (appendOk 2 (appendOk 2 (appendOk 2 (appendOk 2 emptyDb
    "c1" "user" "a" "i1" "t1") "c1" "user" "b" "i2" "t2") "c1" "user" "c" "i3" "t3")
    "c1" "user" "d" "i4" "t4") "c1" "user" "e" "i5" "t5"

/-- A store holding the single message ("c1", "hi") produced by one append. -/
def oneMsgRow : Row :=
  { id := "i1", conversation_id := "c1", role := "user", content := "hi",
    timestamp := "t1", metadata := none }

/-- The database containing exactly oneMsgRow, with healthy storage. -/
def oneMsgDb : D1 :=
  { rows := [oneMsgRow], insertFails := false, selectFails := false, deleteFails := false }

/-- The database state after a successful deleteConversation. -/
def deletedDb (db : D1) (conversationId : String) : D1 :=
  { db with rows := db.rows.filter (fun r => decide (¬r.conversation_id = conversationId)) }

/-- A row whose metadata column holds the empty string: not valid JSON, yet
skipped (not parsed) by the truthiness guard of the row mapper. -/
def emptyMetaRow : Row :=
  { id := "i1", conversation_id := "c1", role := "user", content := "hi",
    timestamp := "t1", metadata := some "" }

/-- The database containing exactly emptyMetaRow, with healthy storage. -/
def emptyMetaDb : D1 :=
  { rows := [emptyMetaRow], insertFails := false, selectFails := false,
    deleteFails := false }

/-- A row with a non-empty metadata string rejected by the JSON parse. -/
def badMetaRow : Row :=
  { id := "i1", conversation_id := "c1", role := "user", content := "hi",
    timestamp := "t1", metadata := some "x" }

/-- The database containing exactly badMetaRow, with healthy storage. -/
def badMetaDb : D1 :=
  { rows := [badMetaRow], insertFails := false, selectFails := false,
    deleteFails := false }

lemma length_filter_keep_le (rows : List Row) (cid : String) (ids : List String)
    (hnd : (rows.map Row.id).Nodup) :
    (rowsFor (rows.filter (fun r => decide (¬(r.conversation_id = cid ∧ r.id ∉ ids))))
      cid).length ≤ ids.length := by
  set l := rowsFor (rows.filter (fun r => decide (¬(r.conversation_id = cid ∧ r.id ∉ ids))))
    cid with hldef
  have hsub : List.Sublist l rows :=
    (List.filter_sublist _).trans (List.filter_sublist _)
  have hndl : (l.map Row.id).Nodup := hnd.sublist (hsub.map Row.id)
  have hss : l.map Row.id ⊆ ids := by
    intro x hx
    rcases List.mem_map.mp hx with ⟨r, hr, rfl⟩
    rw [hldef] at hr
    have h1 := List.mem_filter.mp hr
    have h2 := List.mem_filter.mp h1.1
    have hcid : r.conversation_id = cid := by
      have := h1.2
      simpa using this
    have hkeep : ¬r.conversation_id = cid ∨ r.id ∈ ids := by
      have := h2.2
      simpa using this
    rcases hkeep with h | h
    · exact absurd hcid h
    · exact h
  calc l.length = (l.map Row.id).length := by simp
    _ ≤ ids.length := (hndl.subperm hss).length_le

lemma rowsFor_cleanup_length_le (n : Nat) (db : D1) (cid : String)
    (hd : db.deleteFails = false) (hnd : (db.rows.map Row.id).Nodup) :
    (rowsFor (cleanupConversation n db cid).rows cid).length ≤ n := by
  simp only [cleanupConversation, hd, Bool.false_eq_true, if_false]
  refine le_trans (length_filter_keep_le db.rows cid _ hnd) ?_
  calc (((List.insertionSort tsGe (rowsFor db.rows cid)).take n).map Row.id).length
      = ((List.insertionSort tsGe (rowsFor db.rows cid)).take n).length := by simp
    _ ≤ n := List.length_take_le _ _

/-- Claim C4: the retained message count of a conversation never exceeds
maxHistoryLength after an append (with healthy storage and distinct message
ids): the append succeeds and the retained rows of the conversation number at
most maxHistoryLength; with cap 2, appending "a","b","c","d","e" in timestamp
order leaves exactly the two most recent ("d","e") retrievable via getHistory,
in ascending order. -/
theorem storeMessage_retention (α : Type) (maxLen : Nat) (db : D1)
    (cid roleV contentV : String) (md : Option α) (newId ts : String) (strf : α → String)
    (hi : db.insertFails = false) (hd : db.deleteFails = false)
    (hnd : (db.rows.map Row.id).Nodup) (hfresh : newId ∉ db.rows.map Row.id) :
    storeMessage α maxLen db cid roleV contentV md newId ts strf =
      Except.ok (builtMessage α cid roleV contentV md newId ts,
        cleanupConversation maxLen
          { db with rows := db.rows ++ [insertedRow α cid roleV contentV md newId ts strf] }
          cid)
    ∧ (rowsFor (cleanupConversation maxLen
        { db with rows := db.rows ++ [insertedRow α cid roleV contentV md newId ts strf] }
        cid).rows cid).length ≤ maxLen
    ∧ (getConversationHistory Unit 2 exampleDb5 "c1" (fun _ => none)).map
        (fun m => m.content) = ["d", "e"]
    ∧ (getConversationHistory Unit 2 exampleDb5 "c1" (fun _ => none)).map
        (fun m => m.timestamp) = ["t4", "t5"] := by
  refine ⟨by simp [storeMessage, hi], ?_, by decide, by decide⟩
  apply rowsFor_cleanup_length_le
  · exact hd
  · have : (db.rows ++ [insertedRow α cid roleV contentV md newId ts strf]).map Row.id =
        db.rows.map Row.id ++ [newId] := by
      simp [insertedRow]
    rw [this]
    simp [List.nodup_append, hnd, hfresh]

/-- Witness for claim C4: a sixth append into the capped example store keeps
the retained count at 2. -/
theorem storeMessage_retention_witness :
    storeMessage Unit 2 exampleDb5 "c1" "user" "f" none "i6" "t6" (fun _ => "") =
      Except.ok (builtMessage Unit "c1" "user" "f" none "i6" "t6",
        cleanupConversation 2
          { exampleDb5 with rows := exampleDb5.rows ++
              [insertedRow Unit "c1" "user" "f" none "i6" "t6" (fun _ => "")] }
          "c1")
    ∧ (rowsFor (cleanupConversation 2
        { exampleDb5 with rows := exampleDb5.rows ++
            [insertedRow Unit "c1" "user" "f" none "i6" "t6" (fun _ => "")] }
        "c1").rows "c1").length ≤ 2
    ∧ (getConversationHistory Unit 2 exampleDb5 "c1" (fun _ => none)).map
        (fun m => m.content) = ["d", "e"]
    ∧ (getConversationHistory Unit 2 exampleDb5 "c1" (fun _ => none)).map
        (fun m => m.timestamp) = ["t4", "t5"] :=
  storeMessage_retention Unit 2 exampleDb5 "c1" "user" "f" none "i6" "t6" (fun _ => "")
    rfl rfl (by decide) (by decide)

lemma mapRowsM_cons (α : Type) (f : Row → Option (ConversationMessage α)) (r : Row)
    (rs : List Row) :
    mapRowsM α f (r :: rs) =
      match f r with
      | none => none
      | some m =>
        match mapRowsM α f rs with
        | none => none
        | some ms => some (m :: ms) := rfl

lemma mapRowsM_length (α : Type) (f : Row → Option (ConversationMessage α)) :
    ∀ (l : List Row) (ms : List (ConversationMessage α)),
      mapRowsM α f l = some ms → ms.length = l.length := by
  intro l
  induction l with
  | nil =>
    intro ms h
    simp only [mapRowsM] at h
    cases h
    rfl
  | cons r rs ih =>
    intro ms h
    rw [mapRowsM_cons] at h
    cases hf : f r with
    | none => rw [hf] at h; cases h
    | some m =>
      rw [hf] at h
      cases hrec : mapRowsM α f rs with
      | none => rw [hrec] at h; cases h
      | some ms2 =>
        rw [hrec] at h
        cases h
        simp [ih ms2 hrec]

lemma rowToMessage_timestamp (α : Type) (pj : String → Option α) (r : Row)
    (m : ConversationMessage α) (h : rowToMessage α pj r = some m) :
    m.timestamp = r.timestamp := by
  cases hm : r.metadata with
  | none =>
    simp only [rowToMessage, hm] at h
    cases h
    rfl
  | some s =>
    simp only [rowToMessage, hm] at h
    by_cases hs : s = ""
    · rw [if_pos hs] at h
      cases h
      rfl
    · rw [if_neg hs] at h
      cases hp : pj s with
      | none => rw [hp] at h; cases h
      | some v => rw [hp] at h; cases h; rfl

lemma mapRowsM_timestamps (α : Type) (pj : String → Option α) :
    ∀ (l : List Row) (ms : List (ConversationMessage α)),
      mapRowsM α (rowToMessage α pj) l = some ms →
      ms.map (fun m => m.timestamp) = l.map Row.timestamp := by
  intro l
  induction l with
  | nil =>
    intro ms h
    simp only [mapRowsM] at h
    cases h
    rfl
  | cons r rs ih =>
    intro ms h
    rw [mapRowsM_cons] at h
    cases hf : rowToMessage α pj r with
    | none => rw [hf] at h; cases h
    | some m =>
      rw [hf] at h
      cases hrec : mapRowsM α (rowToMessage α pj) rs with
      | none => rw [hrec] at h; cases h
      | some ms2 =>
        rw [hrec] at h
        cases h
        simp [ih ms2 hrec, rowToMessage_timestamp α pj r m hf]

lemma mapRowsM_none_of_mem (α : Type) (f : Row → Option (ConversationMessage α)) :
    ∀ (l : List Row) (r : Row), r ∈ l → f r = none → mapRowsM α f l = none := by
  intro l
  induction l with
  | nil =>
    intro r hr
    cases hr
  | cons a rs ih =>
    intro r hr hf
    rw [mapRowsM_cons]
    rcases List.mem_cons.mp hr with h | h
    · subst h
      rw [hf]
    · cases hfa : f a with
      | none => rfl
      | some m => rw [ih r h hf]

lemma getHistory_eq_nil_of_rowsFor_nil (α : Type) (maxLen : Nat) (db : D1) (cid : String)
    (pj : String → Option α) (h : rowsFor db.rows cid = []) :
    getConversationHistory α maxLen db cid pj = [] := by
  cases hs : db.selectFails
  · simp [getConversationHistory, hs, h, List.insertionSort, mapRowsM]
  · simp [getConversationHistory, hs]

/-- Claim C5: getHistory returns at most maxHistoryLength messages, in
ascending timestamp order, and returns the empty sequence — never an error —
both when the conversation has no rows and when the storage read fails. -/
theorem getHistory_spec (α : Type) (maxLen : Nat) (db : D1) (cid : String)
    (parseJson : String → Option α) :
    (getConversationHistory α maxLen db cid parseJson).length ≤ maxLen
    ∧ List.Pairwise (fun a b => a.timestamp.data ≤ b.timestamp.data)
        (getConversationHistory α maxLen db cid parseJson)
    ∧ (rowsFor db.rows cid = [] → getConversationHistory α maxLen db cid parseJson = [])
    ∧ (db.selectFails = true → getConversationHistory α maxLen db cid parseJson = []) := by
  have hresult : getConversationHistory α maxLen db cid parseJson = [] ∨
      mapRowsM α (rowToMessage α parseJson)
        ((List.insertionSort tsLe (rowsFor db.rows cid)).take maxLen) =
        some (getConversationHistory α maxLen db cid parseJson) := by
    cases hs : db.selectFails
    · cases hm : mapRowsM α (rowToMessage α parseJson)
          ((List.insertionSort tsLe (rowsFor db.rows cid)).take maxLen)
      · left
        simp [getConversationHistory, hs, hm]
      · right
        simp [getConversationHistory, hs, hm]
    · left
      simp [getConversationHistory, hs]
  have hlp : (getConversationHistory α maxLen db cid parseJson).length ≤ maxLen
      ∧ List.Pairwise (fun a b => a.timestamp.data ≤ b.timestamp.data)
          (getConversationHistory α maxLen db cid parseJson) := by
    rcases hresult with h | h
    · rw [h]
      exact ⟨Nat.zero_le _, List.Pairwise.nil⟩
    · have hlen := mapRowsM_length α (rowToMessage α parseJson) _ _ h
      have hts := mapRowsM_timestamps α parseJson _ _ h
      constructor
      · rw [hlen]
        exact List.length_take_le _ _
      · have hsorted : List.Pairwise tsLe
            ((List.insertionSort tsLe (rowsFor db.rows cid)).take maxLen) :=
          List.Pairwise.sublist (List.take_sublist _ _) (List.sorted_insertionSort tsLe _)
        have h1 : (((List.insertionSort tsLe (rowsFor db.rows cid)).take maxLen).map
            Row.timestamp).Pairwise (fun a b => a.data ≤ b.data) :=
          (List.pairwise_map).mpr hsorted
        rw [← hts] at h1
        have h2 := (List.pairwise_map).mp h1
        exact h2
  exact ⟨hlp.1, hlp.2,
    fun h => getHistory_eq_nil_of_rowsFor_nil α maxLen db cid parseJson h,
    fun hs => by simp [getConversationHistory, hs]⟩

/-- Witness for claim C5: a conversation never seen by the example store
yields the empty sequence. -/
theorem getHistory_spec_witness :
    getConversationHistory Unit 50 exampleDb5 "never-seen" (fun _ => none) = [] :=
  (getHistory_spec Unit 50 exampleDb5 "never-seen" (fun _ => none)).2.2.1 (by decide)

/-- Claim C6: deleteConversation removes every message of the conversation and
raises an explicit error if the storage delete fails; after a successful
delete getHistory returns the empty sequence, and a second delete (a delete of
a conversation with no stored messages) does not raise. -/
theorem deleteConversation_spec (α : Type) (maxLen : Nat) (db : D1) (cid : String)
    (parseJson : String → Option α) :
    (db.deleteFails = true →
      deleteConversation db cid = Except.error ("Failed to delete conversation"))
    ∧ (db.deleteFails = false →
      deleteConversation db cid = Except.ok (deletedDb db cid)
      ∧ rowsFor (deletedDb db cid).rows cid = []
      ∧ getConversationHistory α maxLen (deletedDb db cid) cid parseJson = []
      ∧ deleteConversation (deletedDb db cid) cid = Except.ok (deletedDb db cid)) := by
  have hnil : rowsFor (deletedDb db cid).rows cid = [] := by
    rw [rowsFor, List.filter_eq_nil_iff]
    intro r hr
    simp only [deletedDb] at hr
    have h2 := (List.mem_filter.mp hr).2
    simp only [decide_eq_true_eq] at h2 ⊢
    exact h2
  constructor
  · intro hd
    simp [deleteConversation, hd]
  · intro hd
    have h1 : deleteConversation db cid = Except.ok (deletedDb db cid) := by
      simp [deleteConversation, hd, deletedDb]
    refine ⟨h1, hnil, getHistory_eq_nil_of_rowsFor_nil α maxLen _ cid parseJson hnil, ?_⟩
    have h2 : (deletedDb db cid).rows.filter
        (fun r => decide (¬r.conversation_id = cid)) = (deletedDb db cid).rows := by
      rw [List.filter_eq_self]
      intro r hr
      simp only [deletedDb] at hr
      exact (List.mem_filter.mp hr).2
    have hdf : (deletedDb db cid).deleteFails = false := hd
    have h3 : deleteConversation (deletedDb db cid) cid =
        Except.ok (deletedDb (deletedDb db cid) cid) := by
      simp [deleteConversation, deletedDb, hdf, hd]
    have h4 : deletedDb (deletedDb db cid) cid = deletedDb db cid := by
      nth_rewrite 1 [deletedDb]
      rw [h2]
    rw [h3, h4]

/-- Witness for claim C6: appending "hi" to "c1" and deleting "c1" leaves
nothing retrievable, and a second delete succeeds. -/
theorem deleteConversation_spec_witness :
    deleteConversation oneMsgDb "c1" = Except.ok (deletedDb oneMsgDb "c1")
    ∧ rowsFor (deletedDb oneMsgDb "c1").rows "c1" = []
    ∧ getConversationHistory Unit 50 (deletedDb oneMsgDb "c1") "c1" (fun _ => none) = []
    ∧ deleteConversation (deletedDb oneMsgDb "c1") "c1" =
        Except.ok (deletedDb oneMsgDb "c1") :=
  (deleteConversation_spec Unit 50 oneMsgDb "c1" (fun _ => none)).2 rfl

lemma length_filter_conv_eq_count (rows : List Row) (c : String) :
    (rows.filter (fun r => decide (r.conversation_id = c))).length =
      (rows.map Row.conversation_id).count c := by
  induction rows with
  | nil => rfl
  | cons r rs ih =>
    simp only [List.filter_cons, List.map_cons, List.count_cons]
    by_cases h : r.conversation_id = c
    · simp [h, ih]
    · simp [h, ih]

lemma length_rowsFor_eq_count (rows : List Row) (c : String) :
    (rowsFor rows c).length = (rows.map Row.conversation_id).count c :=
  length_filter_conv_eq_count rows c

/-- Counterexample to claim C7 as stated: totalConversations is the number of
distinct conversation identifiers currently stored, not ever stored.  One
message is stored for "c1" (so one identifier was ever stored), the
conversation is deleted, and getStats then reports 0 conversations, not 1. -/
theorem getStats_ever_stored_cx :
    storeMessage Unit 50 emptyDb "c1" "user" "hi" none "i1" "t1" (fun _ => "") =
      Except.ok (builtMessage Unit "c1" "user" "hi" none "i1" "t1", oneMsgDb)
    ∧ deleteConversation oneMsgDb "c1" = Except.ok emptyDb
    ∧ (getConversationStats emptyDb).1 = 0
    ∧ (0 : Nat) ≠ 1 := by
  refine ⟨rfl, rfl, rfl, by decide⟩

/-- Claim C7 (amended): getStats returns totalConversations = the number of
distinct conversation identifiers currently stored and totalMessages = the
current total row count, which equals the sum of the currently-retained
message counts across the distinct conversations; on a storage failure it
returns (0, 0) instead of propagating the error. -/
theorem getStats_spec (db : D1) :
    (db.selectFails = false →
      getConversationStats db =
        ((db.rows.map Row.conversation_id).dedup.length, db.rows.length)
      ∧ ((db.rows.map Row.conversation_id).dedup.map
          (fun c => (rowsFor db.rows c).length)).sum = db.rows.length)
    ∧ (db.selectFails = true → getConversationStats db = (0, 0)) := by
  constructor
  · intro h
    constructor
    · simp [getConversationStats, h]
    · have hc : ∀ c, (rowsFor db.rows c).length = (db.rows.map Row.conversation_id).count c :=
        fun c => length_rowsFor_eq_count db.rows c
      calc ((db.rows.map Row.conversation_id).dedup.map
            (fun c => (rowsFor db.rows c).length)).sum
          = ((db.rows.map Row.conversation_id).dedup.map
            (fun c => (db.rows.map Row.conversation_id).count c)).sum := by
            simp only [hc]
        _ = (db.rows.map Row.conversation_id).length :=
            List.sum_map_count_dedup_eq_length _
        _ = db.rows.length := by simp
  · intro h
    simp [getConversationStats, h]

/-- Witness for claim C7 (amended): the one-message store reports one
conversation and one message, and the per-conversation counts add up. -/
theorem getStats_spec_witness :
    getConversationStats oneMsgDb =
      ((oneMsgDb.rows.map Row.conversation_id).dedup.length, oneMsgDb.rows.length)
    ∧ ((oneMsgDb.rows.map Row.conversation_id).dedup.map
        (fun c => (rowsFor oneMsgDb.rows c).length)).sum = oneMsgDb.rows.length :=
  (getStats_spec oneMsgDb).1 rfl

/-- Counterexample to claim C9 as stated: under a JSON parse that rejects
every string — in particular the empty string, which real JSON.parse also
rejects — a retained row carrying the invalid metadata "" does not make
getHistory return the empty sequence: the falsy empty string is skipped by
the truthiness guard of the row mapper, so the message is returned. -/
theorem getHistory_empty_metadata_cx :
    emptyMetaRow.metadata = some ""
    ∧ (fun _ : String => (none : Option Unit)) "" = none
    ∧ getConversationHistory Unit 50 emptyMetaDb "c1" (fun _ => none) =
        [{ id := "i1", conversationId := "c1", role := "user", content := "hi",
           timestamp := "t1", metadata := none }]
    ∧ getConversationHistory Unit 50 emptyMetaDb "c1" (fun _ => none) ≠ [] := by
  refine ⟨rfl, rfl, by decide, by decide⟩

/-- Claim C9 (amended): if a retained row of a conversation carries a
non-empty metadata string on which the JSON parse fails, getHistory returns
the empty sequence for the entire conversation: the parse failure is handled
as a read failure, so the well-formed messages of that conversation are not
returned either. -/
theorem getHistory_bad_metadata (α : Type) (maxLen : Nat) (db : D1) (cid : String)
    (parseJson : String → Option α) (r : Row) (s : String)
    (hsel : db.selectFails = false)
    (hmem : r ∈ rowsFor db.rows cid)
    (hmd : r.metadata = some s) (hne : s ≠ "") (hp : parseJson s = none)
    (hlen : (rowsFor db.rows cid).length ≤ maxLen) :
    getConversationHistory α maxLen db cid parseJson = [] := by
  have hfail : rowToMessage α parseJson r = none := by
    simp [rowToMessage, hmd, hne, hp]
  have hmem2 : r ∈ (List.insertionSort tsLe (rowsFor db.rows cid)).take maxLen := by
    have hperm := List.perm_insertionSort tsLe (rowsFor db.rows cid)
    have hlen2 : (List.insertionSort tsLe (rowsFor db.rows cid)).length ≤ maxLen := by
      rw [hperm.length_eq]
      exact hlen
    rw [List.take_of_length_le hlen2]
    exact hperm.mem_iff.mpr hmem
  have hnone := mapRowsM_none_of_mem α (rowToMessage α parseJson) _ r hmem2 hfail
  simp [getConversationHistory, hsel, hnone]

/-- Witness for claim C9 (amended): a store whose one retained row has
unparseable non-empty metadata makes getHistory return the empty sequence. -/
theorem getHistory_bad_metadata_witness :
    getConversationHistory Unit 50 badMetaDb "c1" (fun _ => none) = [] :=
  getHistory_bad_metadata Unit 50 badMetaDb "c1" (fun _ => none) badMetaRow "x"
    rfl (by decide) rfl (by decide) rfl (by decide)

/-- Claim C10: if the INSERT itself fails, append raises the storage error to
the caller and returns no message; if the INSERT succeeds the append returns
the built message even though the subsequent retention step is best-effort
(its failure is swallowed inside cleanupConversation). -/
theorem storeMessage_insert_fail (α : Type) (maxLen : Nat) (db : D1)
    (cid roleV contentV : String) (md : Option α) (newId ts : String) (strf : α → String) :
    (db.insertFails = true →
      storeMessage α maxLen db cid roleV contentV md newId ts strf =
        Except.error ("Failed to store conversation message"))
    ∧ (db.insertFails = false →
      storeMessage α maxLen db cid roleV contentV md newId ts strf =
        Except.ok (builtMessage α cid roleV contentV md newId ts,
          cleanupConversation maxLen
            { db with rows := db.rows ++
                [insertedRow α cid roleV contentV md newId ts strf] }
            cid)) := by
  constructor
  · intro h
    simp [storeMessage, h]
  · intro h
    simp [storeMessage, h]

/-- Witness for claim C10: the insert-failure branch at a concrete store. -/
theorem storeMessage_insert_fail_witness :
    storeMessage Unit 50
        { rows := [], insertFails := true, selectFails := false, deleteFails := false }
        "c1" "user" "hi" none "i1" "t1" (fun _ => "") =
      Except.error ("Failed to store conversation message") :=
  (storeMessage_insert_fail Unit 50
    { rows := [], insertFails := true, selectFails := false, deleteFails := false }
    "c1" "user" "hi" none "i1" "t1" (fun _ => "")).1 rfl

end ConvStore
